import Mathlib

/-!
Verification of the `easy-envar` crate (`src/lib.rs`): a typed
environment-variable loader.  The Rust code declares environment variables
(`Envar`, four variants carrying a name), loads and parses them from the
process environment (`Envar::load`), and re-exports loaded values as Cargo
build directives (`LoadedEnvar::export`).

The embedding below translates the Rust source into Lean:
* the process environment is a table `String → Option String`
  (`std::env::var key` succeeds exactly when the table maps `key` to some
  value, and fails with `VarError::NotPresent` otherwise);
* `raw.parse::<bool>()` is Rust's `FromStr for bool`: exactly the literals
  `"true"` and `"false"` succeed;
* `raw.parse::<u16>() / parse::<u32>()` is Rust's `from_str_radix` at
  radix 10 for an unsigned target: an optional single leading `'+'`, then
  one or more ASCII decimal digits, folded left with a per-step overflow
  check against the type's maximum; errors are `Empty` (empty string),
  `InvalidDigit` (non-digit byte, or a bare sign), `PosOverflow`
  (value exceeds the maximum);
* `val.to_string()` on `u16`/`u32` is decimal notation (`Nat.repr`),
  on `bool` it is `"true"` / `"false"`;
* the error values propagated by `?` in `load` are `std::env::VarError`,
  `std::str::ParseBoolError` and `std::num::ParseIntError`, with the
  `Display` messages fixed by the Rust standard library.
-/

/-- Error kinds of Rust's `std::num::ParseIntError` reachable when parsing
an unsigned integer at radix 10. -/
inductive IntErrorKind where
  | empty
  | invalidDigit
  | posOverflow
deriving DecidableEq, Repr

/-- The error values that `Envar::load` can propagate via `?` (boxed as
`Box<dyn Error>` in the source): `std::env::VarError::NotPresent` from the
environment lookup, `std::str::ParseBoolError` from `parse::<bool>` and
`std::num::ParseIntError` from `parse::<u16>/<u32>`. -/
inductive LoadError where
  | varError
  | parseBoolError
  | parseIntError (kind : IntErrorKind)
deriving DecidableEq, Repr

/-- The `Display` text of each propagated error, as fixed by the Rust
standard library (`VarError::NotPresent`, `ParseBoolError`,
`ParseIntError` per `IntErrorKind`). -/
def LoadError.message : LoadError → String
  | .varError => "environment variable not found"
  | .parseBoolError => "provided string was not `true` or `false`"
  | .parseIntError .empty => "cannot parse integer from empty string"
  | .parseIntError .invalidDigit => "invalid digit found in string"
  | .parseIntError .posOverflow => "number too large to fit in target type"

/-- Rust's `FromStr for bool`: exactly `"true"` and `"false"` parse
(case-sensitive); anything else is a `ParseBoolError`. -/
def parseBool (s : String) : Except Unit Bool :=
  if s = "true" then .ok true
  else if s = "false" then .ok false
  else .error ()

/-- The digit loop of Rust's `from_str_radix` (radix 10, unsigned target
with maximum value `max`): each byte must be an ASCII decimal digit
(`InvalidDigit` otherwise), and the running value is multiplied by 10 and
the digit added with a checked-overflow step (`PosOverflow` when the
result would exceed `max`). -/
def parseUnsignedCore (max : Nat) : List Char → Nat → Except IntErrorKind Nat
  | [], acc => .ok acc
  | c :: cs, acc =>
    if c.isDigit then
      let acc' := acc * 10 + (c.toNat - 48)
      if max < acc' then .error .posOverflow
      else parseUnsignedCore max cs acc'
    else .error .invalidDigit

/-- Rust's `from_str_radix` (radix 10) for an unsigned integer type with
maximum value `max`: the empty string is `Empty`; a bare `"+"` or `"-"`
is `InvalidDigit`; a leading `'+'` is skipped (a leading `'-'` is not a
sign for an unsigned target and fails as a non-digit); then the digit
loop runs. -/
def parseUnsigned (max : Nat) (s : String) : Except IntErrorKind Nat :=
  match s.data with
  | [] => .error .empty
  | ['+'] => .error .invalidDigit
  | '+' :: cs => parseUnsignedCore max cs 0
  | cs => parseUnsignedCore max cs 0

/-- `u16::MAX`. -/
def u16Max : Nat := 65535

/-- `u32::MAX`. -/
def u32Max : Nat := 4294967295

/-- Alias for `String`, usable inside namespaces where a constructor
named `String` shadows the type. -/
abbrev Str : Type := String

/-- The process environment table: each variable name maps to its raw
text value, or to nothing when the variable is unset. -/
abbrev EnvTable : Type := String → Option String

/-- The `Envar` enum of the source: an unloaded declaration of one
environment variable, a name tagged with the expected type. -/
inductive Envar where
  | Bool (key : String)
  | String (key : String)
  | U16 (key : String)
  | U32 (key : String)
deriving DecidableEq, Repr

/-- The `LoadedEnvar` enum of the source: a name together with the parsed,
typed value.  The `u16`/`u32` payloads are represented as `Nat`; `load`
only ever produces values within the type's range. -/
inductive LoadedEnvar where
  | String (key : String) (val : String)
  | Bool (key : String) (val : Bool)
  | U16 (key : String) (val : Nat)
  | U32 (key : String) (val : Nat)
deriving DecidableEq, Repr

/-- The `key` extraction at the top of `Envar::load`: every variant
carries the variable name. -/
def Envar.key : Envar → Str
  | .Bool k | .String k | .U16 k | .U32 k => k

/-- The variant tag of a declaration. -/
def Envar.kind : Envar → Nat
  | .Bool _ => 0
  | .String _ => 1
  | .U16 _ => 2
  | .U32 _ => 3

/-- The variant tag of a loaded value, numbered to match `Envar.kind`. -/
def LoadedEnvar.kind : LoadedEnvar → Nat
  | .Bool _ _ => 0
  | .String _ _ => 1
  | .U16 _ _ => 2
  | .U32 _ _ => 3

/-- The name carried by a loaded value (first field of every variant). -/
def LoadedEnvar.name : LoadedEnvar → Str
  | .String k _ | .Bool k _ | .U16 k _ | .U32 k _ => k

/-- `Envar::load`: look the name up in the process environment
(`std::env::var`, failing with `VarError::NotPresent` when absent), then
dispatch on the declared kind: `String` keeps the raw text, `Bool` parses
with `parse::<bool>`, `U16`/`U32` with `parse::<u16>/<u32>`, each `?`
propagating the parse error. -/
def Envar.load (e : Envar) (env : EnvTable) :
    Except LoadError LoadedEnvar :=
  let key := e.key
  match env key with
  | none => .error .varError
  | some raw =>
    match e with
    | .String _ => .ok (.String key raw)
    | .Bool _ =>
      match parseBool raw with
      | .ok val => .ok (.Bool key val)
      | .error _ => .error .parseBoolError
    | .U16 _ =>
      match parseUnsigned u16Max raw with
      | .ok val => .ok (.U16 key val)
      | .error k => .error (.parseIntError k)
    | .U32 _ =>
      match parseUnsigned u32Max raw with
      | .ok val => .ok (.U32 key val)
      | .error k => .error (.parseIntError k)

/-- `LoadedEnvar::export`: the single line printed by
`println!("cargo:rustc-env={}={}", key, val)`, where `val` is the string
value itself, `bool::to_string` (`"true"`/`"false"`), or the decimal
`to_string` of the integer.  The function returns the printed line (the
`println!` then emits exactly this text followed by one newline). -/
def LoadedEnvar.export : LoadedEnvar → Str
  | .String key val => "cargo:rustc-env=" ++ key ++ "=" ++ val
  | .Bool key val => "cargo:rustc-env=" ++ key ++ "=" ++ (if val then "true" else "false")
  | .U16 key val => "cargo:rustc-env=" ++ key ++ "=" ++ Nat.repr val
  | .U32 key val => "cargo:rustc-env=" ++ key ++ "=" ++ Nat.repr val

/-- State-passing form of `Envar::load` for the frame claim: the process
environment table is threaded through the call.  `std::env::var` only
reads the table (its contract in the Rust standard library), and the parse
and construction steps are pure, so each step passes the table on
unchanged; the final table is returned next to the result. -/
def Envar.loadState (e : Envar) (env : EnvTable) :
    EnvTable × Except LoadError LoadedEnvar :=
  let key := e.key
  match env key with
  | none => (env, .error .varError)
  | some raw =>
    match e with
    | .String _ => (env, .ok (.String key raw))
    | .Bool _ =>
      match parseBool raw with
      | .ok val => (env, .ok (.Bool key val))
      | .error _ => (env, .error .parseBoolError)
    | .U16 _ =>
      match parseUnsigned u16Max raw with
      | .ok val => (env, .ok (.U16 key val))
      | .error k => (env, .error (.parseIntError k))
    | .U32 _ =>
      match parseUnsigned u32Max raw with
      | .ok val => (env, .ok (.U32 key val))
      | .error k => (env, .error (.parseIntError k))

/-- A one-entry environment table. -/
def envOf (name v : String) : String → Option String :=
  fun k => if k = name then some v else none

/-- One step of the base-10 accumulation: append the digit `c` to the
value `a`. -/
def digitStep (a : Nat) (c : Char) : Nat := a * 10 + (c.toNat - 48)

/-- The numeric value of a list of ASCII decimal digits (most significant
first). -/
def digitsVal (l : List Char) : Nat := l.foldl digitStep 0

/-- Drop one leading `'+'`, as Rust's `from_str_radix` does before the
digit loop. -/
def stripPlus (l : List Char) : List Char :=
  match l with
  | [] => []
  | c :: cs => if c = '+' then cs else l

/-- The decimal digit characters of `n`, most significant first: the
mathematical description of `to_string` / `Nat.repr` output. -/
def decChars (n : Nat) : List Char :=
  if n < 10 then [Nat.digitChar n]
  else decChars (n / 10) ++ [Nat.digitChar (n % 10)]
termination_by n
decreasing_by simp_wf; omega

lemma foldl_digitStep_ge (l : List Char) (acc : Nat) :
    acc ≤ l.foldl digitStep acc := by
  induction l generalizing acc with
  | nil => exact Nat.le_refl acc
  | cons c cs ih =>
    refine Nat.le_trans ?_ (ih (digitStep acc c))
    unfold digitStep
    omega

lemma parseUnsignedCore_ok (max : Nat) (l : List Char) (acc v : Nat)
    (hacc : acc ≤ max) (h : parseUnsignedCore max l acc = .ok v) :
    v = l.foldl digitStep acc ∧ v ≤ max ∧ ∀ c ∈ l, c.isDigit := by
  induction l generalizing acc with
  | nil =>
    simp only [parseUnsignedCore] at h
    cases h
    exact ⟨rfl, hacc, by simp⟩
  | cons c cs ih =>
    simp only [parseUnsignedCore] at h
    by_cases hd : c.isDigit
    · rw [if_pos hd] at h
      by_cases hov : max < acc * 10 + (c.toNat - 48)
      · rw [if_pos hov] at h; cases h
      · rw [if_neg hov] at h
        obtain ⟨h1, h2, h3⟩ := ih (acc * 10 + (c.toNat - 48)) (Nat.le_of_not_lt hov) h
        refine ⟨h1, h2, ?_⟩
        intro x hx
        rcases List.mem_cons.mp hx with hx | hx
        · exact hx ▸ hd
        · exact h3 x hx
    · rw [if_neg hd] at h; cases h

lemma parseUnsignedCore_complete (max : Nat) (l : List Char) (acc : Nat)
    (hd : ∀ c ∈ l, c.isDigit) (hle : l.foldl digitStep acc ≤ max) :
    parseUnsignedCore max l acc = .ok (l.foldl digitStep acc) := by
  induction l generalizing acc with
  | nil => rfl
  | cons c cs ih =>
    have hc : c.isDigit := hd c (List.mem_cons_self c cs)
    have hge : digitStep acc c ≤ cs.foldl digitStep (digitStep acc c) :=
      foldl_digitStep_ge cs (digitStep acc c)
    have hle' : cs.foldl digitStep (digitStep acc c) ≤ max := hle
    have hnov : ¬ max < acc * 10 + (c.toNat - 48) :=
      Nat.not_lt.mpr (Nat.le_trans hge hle')
    simp only [parseUnsignedCore, if_pos hc, if_neg hnov]
    exact ih (digitStep acc c) (fun x hx => hd x (List.mem_cons_of_mem c hx)) hle'

lemma parseUnsigned_sound (max : Nat) (s : String) (v : Nat)
    (h : parseUnsigned max s = .ok v) :
    stripPlus s.data ≠ [] ∧ v = digitsVal (stripPlus s.data) ∧ v ≤ max ∧
      ∀ c ∈ stripPlus s.data, c.isDigit := by
  unfold parseUnsigned at h
  split at h
  · cases h
  · cases h
  · rename_i a cs hne heq
    obtain ⟨h1, h2, h3⟩ := parseUnsignedCore_ok max cs 0 v (Nat.zero_le max) h
    rw [heq]
    simp only [stripPlus, if_pos rfl]
    exact ⟨fun hn => hne hn, h1, h2, h3⟩
  · rename_i a hn1 hn2 hn3
    obtain ⟨h1, h2, h3⟩ := parseUnsignedCore_ok max s.data 0 v (Nat.zero_le max) h
    have hsp : stripPlus s.data = s.data := by
      cases hd : s.data with
      | nil => exact (hn1 hd).elim
      | cons c cs =>
        have hcne : c ≠ '+' := fun hc => hn3 cs (by rw [hd, hc])
        simp [stripPlus, hcne]
    rw [hsp]
    exact ⟨fun hn => hn1 hn, h1, h2, h3⟩

lemma parseUnsigned_complete (max : Nat) (s : String)
    (hne : s.data ≠ []) (hd : ∀ c ∈ s.data, c.isDigit)
    (hle : digitsVal s.data ≤ max) :
    parseUnsigned max s = .ok (digitsVal s.data) := by
  have hplus : ∀ cs, s.data ≠ '+' :: cs := by
    intro cs hc
    have : ('+' : Char).isDigit := hd '+' (by rw [hc]; exact List.mem_cons_self _ _)
    exact absurd this (by decide)
  unfold parseUnsigned
  split
  · rename_i heq; exact absurd heq hne
  · rename_i heq; exact absurd heq (hplus [])
  · rename_i a cs hne2 heq; exact absurd heq (hplus cs)
  · exact parseUnsignedCore_complete max s.data 0 hd hle

lemma decChars_small (n : Nat) (h : n < 10) :
    decChars n = [Nat.digitChar n] := by
  unfold decChars
  rw [if_pos h]

lemma decChars_large (n : Nat) (h : ¬ n < 10) :
    decChars n = decChars (n / 10) ++ [Nat.digitChar (n % 10)] := by
  conv_lhs => unfold decChars
  rw [if_neg h]

lemma digitChar_toNat_sub (d : Nat) (h : d < 10) :
    (Nat.digitChar d).toNat - 48 = d := by
  interval_cases d <;> rfl

lemma digitChar_isDigit (d : Nat) (h : d < 10) :
    (Nat.digitChar d).isDigit := by
  interval_cases d <;> decide

lemma toDigitsCore_eq_decChars (n : Nat) :
    ∀ (fuel : Nat) (ds : List Char), n < fuel →
      Nat.toDigitsCore 10 fuel n ds = decChars n ++ ds := by
  induction n using Nat.strong_induction_on with
  | _ n ih =>
    intro fuel ds hlt
    match fuel, hlt with
    | f + 1, hlt =>
      simp only [Nat.toDigitsCore]
      by_cases h10 : n < 10
      · rw [if_pos (Nat.div_eq_of_lt h10)]
        rw [decChars_small n h10, Nat.mod_eq_of_lt h10]
        rfl
      · have hdiv0 : n / 10 ≠ 0 := by omega
        rw [if_neg hdiv0]
        have hlt2 : n / 10 < f := by omega
        rw [ih (n / 10) (by omega) f (Nat.digitChar (n % 10) :: ds) hlt2]
        rw [decChars_large n h10]
        simp

lemma repr_eq_decChars (n : Nat) : Nat.repr n = (decChars n).asString := by
  show (Nat.toDigits 10 n).asString = (decChars n).asString
  unfold Nat.toDigits
  rw [toDigitsCore_eq_decChars n (n + 1) [] (Nat.lt_succ_self n)]
  simp

lemma digitsVal_decChars (n : Nat) : digitsVal (decChars n) = n := by
  induction n using Nat.strong_induction_on with
  | _ n ih =>
    by_cases h10 : n < 10
    · rw [decChars_small n h10]
      show digitStep 0 (Nat.digitChar n) = n
      unfold digitStep
      rw [digitChar_toNat_sub n h10]
      omega
    · rw [decChars_large n h10]
      unfold digitsVal
      rw [List.foldl_append]
      have hv := ih (n / 10) (by omega)
      unfold digitsVal at hv
      rw [hv]
      show digitStep (n / 10) (Nat.digitChar (n % 10)) = n
      unfold digitStep
      rw [digitChar_toNat_sub (n % 10) (Nat.mod_lt n (by omega))]
      omega

lemma decChars_digits (n : Nat) : ∀ c ∈ decChars n, c.isDigit := by
  induction n using Nat.strong_induction_on with
  | _ n ih =>
    by_cases h10 : n < 10
    · rw [decChars_small n h10]
      intro c hc
      rw [List.mem_singleton] at hc
      exact hc ▸ digitChar_isDigit n h10
    · rw [decChars_large n h10]
      intro c hc
      rcases List.mem_append.mp hc with hc | hc
      · exact ih (n / 10) (by omega) c hc
      · rw [List.mem_singleton] at hc
        exact hc ▸ digitChar_isDigit (n % 10) (Nat.mod_lt n (by omega))

lemma decChars_ne_nil (n : Nat) : decChars n ≠ [] := by
  by_cases h10 : n < 10
  · rw [decChars_small n h10]; simp
  · rw [decChars_large n h10]; simp

lemma decChars_head_ne_zero : ∀ n : Nat, n ≠ 0 → (decChars n).head? ≠ some '0' := by
  intro n
  induction n using Nat.strong_induction_on with
  | _ n ih =>
    intro hne
    by_cases h10 : n < 10
    · rw [decChars_small n h10]
      interval_cases n
      · exact absurd rfl hne
      all_goals decide
    · rw [decChars_large n h10]
      have h2 := ih (n / 10) (by omega) (by omega)
      cases hd : decChars (n / 10) with
      | nil => exact absurd hd (decChars_ne_nil (n / 10))
      | cons c cs =>
        rw [hd] at h2
        simpa using h2

lemma load_missing (e : Envar) (env : EnvTable) (h : env e.key = none) :
    e.load env = .error .varError := by
  unfold Envar.load
  simp only [h]

lemma load_string (name : String) (env : EnvTable) (raw : String)
    (h : env name = some raw) :
    (Envar.String name).load env = .ok (.String name raw) := by
  unfold Envar.load
  simp only [Envar.key, h]

lemma load_bool (name : String) (env : EnvTable) (raw : String)
    (h : env name = some raw) :
    (Envar.Bool name).load env =
      match parseBool raw with
      | .ok val => .ok (.Bool name val)
      | .error _ => .error .parseBoolError := by
  unfold Envar.load
  simp only [Envar.key, h]

lemma load_u16 (name : String) (env : EnvTable) (raw : String)
    (h : env name = some raw) :
    (Envar.U16 name).load env =
      match parseUnsigned u16Max raw with
      | .ok val => .ok (.U16 name val)
      | .error k => .error (.parseIntError k) := by
  unfold Envar.load
  simp only [Envar.key, h]

lemma load_u32 (name : String) (env : EnvTable) (raw : String)
    (h : env name = some raw) :
    (Envar.U32 name).load env =
      match parseUnsigned u32Max raw with
      | .ok val => .ok (.U32 name val)
      | .error k => .error (.parseIntError k) := by
  unfold Envar.load
  simp only [Envar.key, h]

/-- Modelled from the spec: the "canonical textual form" of a raw value
that is well-formed for the declaration's kind (§4.2 and the round-trip
property of §8): for `String` declarations the raw text unmodified; for
`Bool` declarations the raw text (a well-formed raw is already exactly
`"true"` or `"false"`); for `U16`/`U32` declarations the base-10 decimal
digits of the number the raw text denotes, with no sign and no leading
zeros.  Used only to state the round-trip claim against the code. -/
def specCanonicalForm (e : Envar) (raw : String) : String :=
  match e with
  | .String _ => raw
  | .Bool _ => raw
  | .U16 _ => (decChars (digitsVal (stripPlus raw.data))).asString
  | .U32 _ => (decChars (digitsVal (stripPlus raw.data))).asString

/-- C3: for every declaration, of any of the four kinds, whose named
variable is absent from the process environment, `load` fails with the
missing-variable error (`VarError::NotPresent`); no parse is attempted
and the declared kind plays no role. -/
theorem load_missing_variable (e : Envar) (env : EnvTable)
    (h : env e.key = none) : e.load env = .error .varError :=
  load_missing e env h

theorem load_missing_variable_witness :
    (Envar.Bool "SECURE").load (fun _ => none) = .error .varError :=
  load_missing_variable (Envar.Bool "SECURE") (fun _ => none) rfl

/-- C8: for every `String` declaration whose variable is present with
value `v`, `load` succeeds and carries exactly `v`: no trimming, no
escaping, and no rejection of empty strings. -/
theorem string_load_identity (name : String) (env : EnvTable) (v : String)
    (h : env name = some v) :
    (Envar.String name).load env = .ok (.String name v) :=
  load_string name env v h

theorem string_load_identity_witness :
    (Envar.String "HOST").load (envOf "HOST" "") = .ok (.String "HOST" "") :=
  string_load_identity "HOST" (envOf "HOST" "") "" rfl

/-- C2: for every `Bool` declaration whose variable is present with text
`s`, `load` succeeds with `true` exactly when `s = "true"` and with
`false` exactly when `s = "false"` (case-sensitive); any other text
fails with `ParseBoolError` (`InvalidBoolValue`). -/
theorem bool_strict_literals (name : String) (env : EnvTable) (s : String)
    (h : env name = some s) :
    ((Envar.Bool name).load env = .ok (.Bool name true) ↔ s = "true") ∧
    ((Envar.Bool name).load env = .ok (.Bool name false) ↔ s = "false") ∧
    (s ≠ "true" → s ≠ "false" →
      (Envar.Bool name).load env = .error .parseBoolError) := by
  rw [load_bool name env s h]
  by_cases h1 : s = "true"
  · subst h1
    refine ⟨?_, ?_, fun hc _ => absurd rfl hc⟩
    · simp [parseBool]
    · simp [parseBool]
  · by_cases h2 : s = "false"
    · subst h2
      refine ⟨?_, ?_, fun _ hc => absurd rfl hc⟩
      · simp [parseBool]
      · simp [parseBool]
    · have hp : parseBool s = .error () := by
        unfold parseBool
        rw [if_neg h1, if_neg h2]
      rw [hp]
      refine ⟨?_, ?_, fun _ _ => rfl⟩
      · simp [h1]
      · simp [h2]

theorem bool_strict_literals_witness :
    ((Envar.Bool "SECURE").load (envOf "SECURE" "True") =
        .ok (.Bool "SECURE" true) ↔ ("True" : String) = "true") ∧
    ((Envar.Bool "SECURE").load (envOf "SECURE" "True") =
        .ok (.Bool "SECURE" false) ↔ ("True" : String) = "false") ∧
    (("True" : String) ≠ "true" → ("True" : String) ≠ "false" →
      (Envar.Bool "SECURE").load (envOf "SECURE" "True") =
        .error .parseBoolError) :=
  bool_strict_literals "SECURE" (envOf "SECURE" "True") "True" rfl

/-- C6: whenever `load` succeeds, the variant tag of the returned
`LoadedEnvar` equals the variant tag of the declaration, and the name it
carries equals the declaration's name. -/
theorem load_preserves_kind_and_name (e : Envar) (env : EnvTable)
    (lv : LoadedEnvar) (h : e.load env = .ok lv) :
    lv.kind = e.kind ∧ lv.name = e.key := by
  cases e with
  | Bool name =>
    cases henv : env name with
    | none => rw [load_missing _ env (by exact henv)] at h; cases h
    | some raw =>
      rw [load_bool name env raw henv] at h
      cases hp : parseBool raw with
      | ok val => rw [hp] at h; cases h; exact ⟨rfl, rfl⟩
      | error u => rw [hp] at h; cases h
  | String name =>
    cases henv : env name with
    | none => rw [load_missing _ env (by exact henv)] at h; cases h
    | some raw =>
      rw [load_string name env raw henv] at h
      cases h
      exact ⟨rfl, rfl⟩
  | U16 name =>
    cases henv : env name with
    | none => rw [load_missing _ env (by exact henv)] at h; cases h
    | some raw =>
      rw [load_u16 name env raw henv] at h
      cases hp : parseUnsigned u16Max raw with
      | ok val => rw [hp] at h; cases h; exact ⟨rfl, rfl⟩
      | error k => rw [hp] at h; cases h
  | U32 name =>
    cases henv : env name with
    | none => rw [load_missing _ env (by exact henv)] at h; cases h
    | some raw =>
      rw [load_u32 name env raw henv] at h
      cases hp : parseUnsigned u32Max raw with
      | ok val => rw [hp] at h; cases h; exact ⟨rfl, rfl⟩
      | error k => rw [hp] at h; cases h

theorem load_preserves_kind_and_name_witness :
    (LoadedEnvar.U32 "PORT" 8080).kind = (Envar.U32 "PORT").kind ∧
    (LoadedEnvar.U32 "PORT" 8080).name = (Envar.U32 "PORT").key :=
  load_preserves_kind_and_name (Envar.U32 "PORT") (envOf "PORT" "8080")
    (LoadedEnvar.U32 "PORT" 8080) rfl

/-- C9: `load` leaves the process environment unchanged.  In the
state-passing form of the call (the environment table threaded through
the read-only `std::env::var` lookup and the pure parse), the table
coming out equals the table going in, whether the call succeeds or
fails, and the result agrees with `load`. -/
theorem load_env_frame (e : Envar) (env : EnvTable) :
    (e.loadState env).1 = env ∧ (e.loadState env).2 = e.load env := by
  cases e with
  | Bool name =>
    simp only [Envar.loadState, Envar.load, Envar.key]
    cases env name with
    | none => exact ⟨rfl, rfl⟩
    | some raw =>
      dsimp only
      cases parseBool raw with
      | ok val => exact ⟨rfl, rfl⟩
      | error u => exact ⟨rfl, rfl⟩
  | String name =>
    simp only [Envar.loadState, Envar.load, Envar.key]
    cases env name with
    | none => exact ⟨rfl, rfl⟩
    | some raw => exact ⟨rfl, rfl⟩
  | U16 name =>
    simp only [Envar.loadState, Envar.load, Envar.key]
    cases env name with
    | none => exact ⟨rfl, rfl⟩
    | some raw =>
      dsimp only
      cases parseUnsigned u16Max raw with
      | ok val => exact ⟨rfl, rfl⟩
      | error k => exact ⟨rfl, rfl⟩
  | U32 name =>
    simp only [Envar.loadState, Envar.load, Envar.key]
    cases env name with
    | none => exact ⟨rfl, rfl⟩
    | some raw =>
      dsimp only
      cases parseUnsigned u32Max raw with
      | ok val => exact ⟨rfl, rfl⟩
      | error k => exact ⟨rfl, rfl⟩

/-- C1: `U16` declarations parse the retrieved text as a base-10 unsigned
integer within `[0, 65535]` — `"0"` loads as `0`, `"65535"` as `65535`,
while `"65536"`, `"-1"` and `"abc"` fail with `ParseIntError`
(`InvalidIntegerValue`); `U32` declarations use `[0, 4294967295]` —
`"4294967295"` loads, `"4294967296"` fails with `ParseIntError`.  Every
successful load yields the base-10 value of the digits (after an optional
sign), bounded by the type's maximum. -/
theorem u16_u32_parse_ranges (name : String) (env : EnvTable) :
    (env name = some "0" → (Envar.U16 name).load env = .ok (.U16 name 0)) ∧
    (env name = some "65535" →
      (Envar.U16 name).load env = .ok (.U16 name 65535)) ∧
    (env name = some "65536" →
      (Envar.U16 name).load env = .error (.parseIntError .posOverflow)) ∧
    (env name = some "-1" →
      (Envar.U16 name).load env = .error (.parseIntError .invalidDigit)) ∧
    (env name = some "abc" →
      (Envar.U16 name).load env = .error (.parseIntError .invalidDigit)) ∧
    (env name = some "4294967295" →
      (Envar.U32 name).load env = .ok (.U32 name 4294967295)) ∧
    (env name = some "4294967296" →
      (Envar.U32 name).load env = .error (.parseIntError .posOverflow)) ∧
    (∀ s lv, env name = some s → (Envar.U16 name).load env = .ok lv →
      ∃ v, lv = .U16 name v ∧ v ≤ 65535 ∧
        v = digitsVal (stripPlus s.data)) ∧
    (∀ s lv, env name = some s → (Envar.U32 name).load env = .ok lv →
      ∃ v, lv = .U32 name v ∧ v ≤ 4294967295 ∧
        v = digitsVal (stripPlus s.data)) := by
  refine ⟨?_, ?_, ?_, ?_, ?_, ?_, ?_, ?_, ?_⟩
  · intro h; rw [load_u16 name env _ h]; rfl
  · intro h; rw [load_u16 name env _ h]; rfl
  · intro h; rw [load_u16 name env _ h]; rfl
  · intro h; rw [load_u16 name env _ h]; rfl
  · intro h; rw [load_u16 name env _ h]; rfl
  · intro h; rw [load_u32 name env _ h]; rfl
  · intro h; rw [load_u32 name env _ h]; rfl
  · intro s lv h hl
    rw [load_u16 name env s h] at hl
    cases hp : parseUnsigned u16Max s with
    | error k => rw [hp] at hl; cases hl
    | ok v =>
      rw [hp] at hl; cases hl
      obtain ⟨hne, hv, hle, hd⟩ := parseUnsigned_sound _ _ _ hp
      exact ⟨v, rfl, hle, hv⟩
  · intro s lv h hl
    rw [load_u32 name env s h] at hl
    cases hp : parseUnsigned u32Max s with
    | error k => rw [hp] at hl; cases hl
    | ok v =>
      rw [hp] at hl; cases hl
      obtain ⟨hne, hv, hle, hd⟩ := parseUnsigned_sound _ _ _ hp
      exact ⟨v, rfl, hle, hv⟩

theorem u16_u32_parse_ranges_witness :
    (Envar.U16 "PORT").load (envOf "PORT" "65536") =
      .error (.parseIntError .posOverflow) ∧
    (Envar.U32 "DATA").load (envOf "DATA" "4294967295") =
      .ok (.U32 "DATA" 4294967295) :=
  ⟨(u16_u32_parse_ranges "PORT" (envOf "PORT" "65536")).2.2.1 rfl,
   (u16_u32_parse_ranges "DATA" (envOf "DATA" "4294967295")).2.2.2.2.2.1 rfl⟩

/-- C4: `export` emits exactly one line `cargo:rustc-env=<name>=<value>`
with no surrounding whitespace, where `<value>` is the canonical textual
form of the payload: the string itself unmodified, `"true"`/`"false"` for
booleans, and unsigned base-10 decimal digits (no sign, no leading zeros)
for `U16`/`U32`; in particular on `U32("PORT", 8080)` the line is exactly
`cargo:rustc-env=PORT=8080`. -/
theorem export_format (n : String) (v : String) (k : Nat) :
    LoadedEnvar.export (.String n v) = "cargo:rustc-env=" ++ n ++ "=" ++ v ∧
    LoadedEnvar.export (.Bool n true) =
      "cargo:rustc-env=" ++ n ++ "=" ++ "true" ∧
    LoadedEnvar.export (.Bool n false) =
      "cargo:rustc-env=" ++ n ++ "=" ++ "false" ∧
    LoadedEnvar.export (.U16 n k) =
      "cargo:rustc-env=" ++ n ++ "=" ++ Nat.repr k ∧
    LoadedEnvar.export (.U32 n k) =
      "cargo:rustc-env=" ++ n ++ "=" ++ Nat.repr k ∧
    (∀ c ∈ (Nat.repr k).data, c.isDigit) ∧
    (k ≠ 0 → (Nat.repr k).data.head? ≠ some '0') ∧
    LoadedEnvar.export (.U32 "PORT" 8080) = "cargo:rustc-env=PORT=8080" := by
  refine ⟨rfl, rfl, rfl, rfl, rfl, ?_, ?_, ?_⟩
  · rw [repr_eq_decChars]
    intro c hc
    exact decChars_digits k c hc
  · intro hk
    rw [repr_eq_decChars]
    exact decChars_head_ne_zero k hk
  · rfl

theorem export_format_witness :
    LoadedEnvar.export (.U32 "PORT" 8080) = "cargo:rustc-env=PORT=8080" ∧
    (Nat.repr 8080).data.head? ≠ some '0' :=
  ⟨(export_format "PORT" "x" 8080).2.2.2.2.2.2.2,
   (export_format "PORT" "x" 8080).2.2.2.2.2.2.1 (by decide)⟩

/-- C5 counterexample: the claim that a failed load's error message
includes the offending variable's name is false.  Loading the `U16`
declaration named `"PORT"` from an empty environment fails with
`VarError::NotPresent`, whose standard-library message is the fixed text
`"environment variable not found"`, which does not contain `"PORT"`. -/
theorem error_message_lacks_name_cex :
    (Envar.U16 "PORT").load (fun _ => none) = .error .varError ∧
    ¬ "PORT".data <:+: (LoadError.message .varError).data := by
  refine ⟨rfl, ?_⟩
  decide

/-- C5 amended: when `load` fails, the returned error distinguishes the
failure cause — it is the missing-variable error exactly when the
variable is absent — and its message is one of five fixed texts from the
Rust standard library, independent of the variable's name (so the name is
not part of the message). -/
theorem error_message_fixed_set (e : Envar) (env : EnvTable)
    (err : LoadError) (h : e.load env = .error err) :
    (err = .varError ↔ env e.key = none) ∧
    (err.message = "environment variable not found" ∨
     err.message = "provided string was not `true` or `false`" ∨
     err.message = "cannot parse integer from empty string" ∨
     err.message = "invalid digit found in string" ∨
     err.message = "number too large to fit in target type") := by
  constructor
  · cases henv : env e.key with
    | none =>
      rw [load_missing e env henv] at h
      cases h
      simp
    | some raw =>
      simp only [henv, Option.some.injEq, reduceCtorEq, iff_false]
      intro hv
      subst hv
      cases e with
      | String name =>
        rw [load_string name env raw (by exact henv)] at h
        cases h
      | Bool name =>
        rw [load_bool name env raw (by exact henv)] at h
        cases hp : parseBool raw with
        | ok val => rw [hp] at h; cases h
        | error u => rw [hp] at h; cases h
      | U16 name =>
        rw [load_u16 name env raw (by exact henv)] at h
        cases hp : parseUnsigned u16Max raw with
        | ok val => rw [hp] at h; cases h
        | error k => rw [hp] at h; cases h
      | U32 name =>
        rw [load_u32 name env raw (by exact henv)] at h
        cases hp : parseUnsigned u32Max raw with
        | ok val => rw [hp] at h; cases h
        | error k => rw [hp] at h; cases h
  · cases err with
    | varError => exact Or.inl rfl
    | parseBoolError => exact Or.inr (Or.inl rfl)
    | parseIntError k =>
      cases k with
      | empty => exact Or.inr (Or.inr (Or.inl rfl))
      | invalidDigit => exact Or.inr (Or.inr (Or.inr (Or.inl rfl)))
      | posOverflow => exact Or.inr (Or.inr (Or.inr (Or.inr rfl)))

theorem error_message_fixed_set_witness :
    ((LoadError.varError = .varError) ↔
      ((fun _ => none : EnvTable) (Envar.U16 "PORT").key = none)) ∧
    ((LoadError.varError).message = "environment variable not found" ∨
     (LoadError.varError).message = "provided string was not `true` or `false`" ∨
     (LoadError.varError).message = "cannot parse integer from empty string" ∨
     (LoadError.varError).message = "invalid digit found in string" ∨
     (LoadError.varError).message = "number too large to fit in target type") :=
  error_message_fixed_set (Envar.U16 "PORT") (fun _ => none) .varError rfl

/-- C7: round-trip.  For every declaration whose variable holds a value
well-formed for its kind (i.e. `load` succeeds), `export` on the loaded
value emits the line `cargo:rustc-env=<name>=<value>` where `<value>` is
the canonical string/boolean/decimal form of the original raw value: the
raw string itself (no case change), the raw `"true"`/`"false"` literal,
or the decimal digits of the number the raw text denotes (no precision
loss). -/
theorem load_export_roundtrip (e : Envar) (env : EnvTable) (raw : String)
    (lv : LoadedEnvar) (h : env e.key = some raw)
    (hl : e.load env = .ok lv) :
    lv.export = "cargo:rustc-env=" ++ e.key ++ "=" ++ specCanonicalForm e raw := by
  cases e with
  | String name =>
    rw [load_string name env raw (by exact h)] at hl
    cases hl
    rfl
  | Bool name =>
    rw [load_bool name env raw (by exact h)] at hl
    cases hp : parseBool raw with
    | error u => rw [hp] at hl; cases hl
    | ok val =>
      rw [hp] at hl
      cases hl
      unfold parseBool at hp
      by_cases h1 : raw = "true"
      · subst h1
        rw [if_pos rfl] at hp
        cases hp
        rfl
      · rw [if_neg h1] at hp
        by_cases h2 : raw = "false"
        · subst h2
          rw [if_pos rfl] at hp
          cases hp
          rfl
        · rw [if_neg h2] at hp
          cases hp
  | U16 name =>
    rw [load_u16 name env raw (by exact h)] at hl
    cases hp : parseUnsigned u16Max raw with
    | error k => rw [hp] at hl; cases hl
    | ok v =>
      rw [hp] at hl
      cases hl
      obtain ⟨hne, hv, hle, hd⟩ := parseUnsigned_sound _ _ _ hp
      show "cargo:rustc-env=" ++ name ++ "=" ++ Nat.repr v = _
      rw [hv, repr_eq_decChars]
      rfl
  | U32 name =>
    rw [load_u32 name env raw (by exact h)] at hl
    cases hp : parseUnsigned u32Max raw with
    | error k => rw [hp] at hl; cases hl
    | ok v =>
      rw [hp] at hl
      cases hl
      obtain ⟨hne, hv, hle, hd⟩ := parseUnsigned_sound _ _ _ hp
      show "cargo:rustc-env=" ++ name ++ "=" ++ Nat.repr v = _
      rw [hv, repr_eq_decChars]
      rfl

theorem load_export_roundtrip_witness :
    LoadedEnvar.export (.U16 "PORT" 80) =
      "cargo:rustc-env=" ++ "PORT" ++ "=" ++
        specCanonicalForm (.U16 "PORT") "+0080" :=
  load_export_roundtrip (Envar.U16 "PORT") (envOf "PORT" "+0080") "+0080"
    (LoadedEnvar.U16 "PORT" 80) rfl rfl

/-- C10 (implicit): `U16`/`U32` loads accept a single leading `'+'`
before the digits, because Rust's unsigned-integer parsing skips one
leading plus sign: a `U16` variable set to `"+80"` loads as `80`, and in
general prefixing one `'+'` to any nonempty all-digit text leaves the
parse result unchanged. -/
theorem leading_plus_accepted (name : String) (env : EnvTable) :
    (env name = some "+80" →
      (Envar.U16 name).load env = .ok (.U16 name 80)) ∧
    (∀ (max : Nat) (s : String), s.data ≠ [] → (∀ c ∈ s.data, c.isDigit) →
      parseUnsigned max (String.mk ('+' :: s.data)) = parseUnsigned max s) := by
  constructor
  · intro h
    rw [load_u16 name env _ h]
    rfl
  · intro max s hne hd
    have hplus : ∀ cs, s.data ≠ '+' :: cs := by
      intro cs hc
      have hmem : ('+' : Char).isDigit :=
        hd '+' (by rw [hc]; exact List.mem_cons_self _ _)
      exact absurd hmem (by decide)
    have hR : parseUnsigned max s = parseUnsignedCore max s.data 0 := by
      unfold parseUnsigned
      split
      · rename_i heq; exact absurd heq hne
      · rename_i heq; exact absurd heq (hplus [])
      · rename_i a cs hne2 heq; exact absurd heq (hplus cs)
      · rfl
    have hL : parseUnsigned max (String.mk ('+' :: s.data)) =
        parseUnsignedCore max s.data 0 := by
      unfold parseUnsigned
      split
      · rename_i heq
        simp at heq
      · rename_i heq
        exact absurd (by simpa using heq) hne
      · rename_i a cs hne2 heq
        have hcs : s.data = cs := by simpa using heq
        rw [hcs]
      · rename_i a hn1 hn2 hn3
        exact (hn3 s.data rfl).elim
    rw [hL, hR]

theorem leading_plus_accepted_witness :
    (Envar.U16 "PORT").load (envOf "PORT" "+80") = .ok (.U16 "PORT" 80) :=
  (leading_plus_accepted "PORT" (envOf "PORT" "+80")).1 rfl
